import Mathlib

/-!
Shallow embedding of the SwiftPay account-service balance ledger
(`BalanceService` in the account service, backed by the `balances`,
`balance_operations` and `balance_snapshots` tables).

Monetary values are stored as `DECIMAL(20,8)` and manipulated as `decimal.js`
exact decimals; the only arithmetic the service performs on them is addition,
subtraction and comparison, under which the 8-fractional-digit decimals are
isomorphic to integers counting 10^-8 currency units.  We therefore model every
monetary value as an `Int` (one unit = 10^-8 of the currency); `+`, `-`, `<`,
`≤`, `= 0` translate verbatim.  The database state touched
by the service is modelled as a `Ledger`: the `balances` table (unique on
(account_id, currency)), the append-only `balance_operations` table and the
`balance_snapshots` table (unique on (account_id, currency, snapshot_date)).
Each service method runs inside one SQL transaction (`BEGIN` … `COMMIT` /
`ROLLBACK`); accordingly the methods are pure functions from a `Ledger` to
`Except` an error message paired with the new `Ledger`, and `runUpdate` /
`runTransfer` give the committed-or-rolled-back state seen by later calls.
Timestamps (`last_updated`, `created_at`) are dropped; `processed_at` is kept
as a flag recording whether the column was set.
-/

deriving instance DecidableEq for Except

namespace SwiftPay

/-- `operation_type` column: 'credit' | 'debit' | 'reserve' | 'release' | 'transfer'. -/
inductive OpType where
  | credit
  | debit
  | reserve
  | release
  | transfer
deriving DecidableEq, Repr

/-- The operation types accepted by `BalanceUpdateRequest.operationType`
(the TypeScript union without 'transfer'). -/
inductive UpdateOpType where
  | credit
  | debit
  | reserve
  | release
deriving DecidableEq, Repr

def UpdateOpType.toOpType : UpdateOpType → OpType
  | .credit => .credit
  | .debit => .debit
  | .reserve => .reserve
  | .release => .release

/-- `status` column of `balance_operations`. -/
inductive OpStatus where
  | pending
  | completed
  | failed
  | cancelled
deriving DecidableEq, Repr

/-- One row of the `balances` table.  `id` and `last_updated` are dropped;
the key is the pair (`accountId`, `currency`) (UNIQUE constraint). -/
structure Balance where
  accountId : String
  currency : String
  availableBalance : Int
  pendingBalance : Int
  totalBalance : Int
  reservedBalance : Int
deriving DecidableEq, Repr

/-- The slice of the `metadata` JSONB column that the service itself writes
and that the spec talks about (`createTransferOperation` spreads the request
metadata and adds `toAccountId` and `transferType`). -/
structure OpMetadata where
  transferType : Option String := none
  toAccountId : Option String := none
deriving DecidableEq, Repr

/-- One row of `balance_operations`.  `id` is modelled as the insertion serial
(rows are only ever appended); `processedAt` records whether `processed_at`
has been set. -/
structure BalanceOperation where
  id : Nat
  accountId : String
  operationType : OpType
  amount : Int
  currency : String
  reference : String
  description : String
  metadata : OpMetadata
  status : OpStatus
  processedAt : Bool
deriving DecidableEq, Repr

structure BalanceUpdateRequest where
  accountId : String
  amount : Int
  currency : String
  operationType : UpdateOpType
  reference : String
  description : String
  metadata : OpMetadata := {}
deriving DecidableEq, Repr

structure TransferRequest where
  fromAccountId : String
  toAccountId : String
  amount : Int
  currency : String
  reference : String
  description : String
  metadata : OpMetadata := {}
deriving DecidableEq, Repr

/-- One row of `balance_snapshots`; the key is
(`accountId`, `currency`, `snapshotDate`) (UNIQUE constraint). -/
structure SnapshotRow where
  accountId : String
  currency : String
  snapshotDate : String
  availableBalance : Int
  pendingBalance : Int
  totalBalance : Int
  reservedBalance : Int
deriving DecidableEq, Repr

/-- The database state owned by the balance service. -/
structure Ledger where
  balances : List Balance
  ops : List BalanceOperation
  snapshots : List SnapshotRow
deriving DecidableEq, Repr

def emptyLedger : Ledger := ⟨[], [], []⟩

/-- Key predicate for a `balances` row. -/
def balKey (accountId currency : String) (b : Balance) : Bool :=
  b.accountId == accountId && b.currency == currency

/-- `getBalance`: `SELECT * FROM balances WHERE account_id = $1 AND currency = $2`. -/
def getBalance (l : Ledger) (accountId currency : String) : Option Balance :=
  l.balances.find? (balKey accountId currency)

/-- The zeroed row produced by `INSERT INTO balances (account_id, currency)`
with the table's column defaults. -/
def zeroBalance (accountId currency : String) : Balance :=
  { accountId := accountId
    currency := currency
    availableBalance := 0
    pendingBalance := 0
    totalBalance := 0
    reservedBalance := 0 }

/-- `getOrCreateBalance`: select the row, inserting a zeroed row if absent. -/
def getOrCreateBalance (l : Ledger) (accountId currency : String) : Balance × Ledger :=
  match getBalance l accountId currency with
  | some b => (b, l)
  | none =>
    (zeroBalance accountId currency,
     { l with balances := l.balances ++ [zeroBalance accountId currency] })

/-- `validateBalanceOperation`: the pre-mutation admissibility switch.  Note
that 'credit' (and 'transfer') fall through the switch with no check, and no
branch examines the sign of `amount`. -/
def validateBalanceOperation (balance : Balance) (operationType : OpType) (amount : Int) :
    Except String Unit :=
  match operationType with
  | .debit =>
    if balance.availableBalance < amount then .error "Insufficient available balance" else .ok ()
  | .release =>
    if balance.reservedBalance < amount then .error "Insufficient reserved balance" else .ok ()
  | .reserve =>
    if balance.availableBalance < amount then .error "Insufficient balance to reserve" else .ok ()
  | _ => .ok ()

/-- The `balance_operations` row inserted by `createBalanceOperation`
(column defaults `status = 'pending'`, `processed_at = NULL`). -/
def updateOpRecord (l : Ledger) (request : BalanceUpdateRequest) : BalanceOperation :=
  { id := l.ops.length
    accountId := request.accountId
    operationType := request.operationType.toOpType
    amount := request.amount
    currency := request.currency
    reference := request.reference
    description := request.description
    metadata := request.metadata
    status := .pending
    processedAt := false }

/-- `createBalanceOperation`: insert one `balance_operations` row with the
column defaults `status = 'pending'`, `processed_at = NULL`; returns its id. -/
def createBalanceOperation (l : Ledger) (request : BalanceUpdateRequest) : Nat × Ledger :=
  (l.ops.length, { l with ops := l.ops ++ [updateOpRecord l request] })

/-- The single `balance_operations` row inserted by `createTransferOperation`:
recorded against the source account, with `metadata` spread from the request
plus `toAccountId` and `transferType: 'outbound'`. -/
def transferOpRecord (l : Ledger) (request : TransferRequest) : BalanceOperation :=
  { id := l.ops.length
    accountId := request.fromAccountId
    operationType := .transfer
    amount := request.amount
    currency := request.currency
    reference := request.reference
    description := request.description
    metadata := { request.metadata with
                   toAccountId := some request.toAccountId
                   transferType := some "outbound" }
    status := .pending
    processedAt := false }

/-- `createTransferOperation`: insert ONE `balance_operations` row for the
whole transfer; returns its id. -/
def createTransferOperation (l : Ledger) (request : TransferRequest) : Nat × Ledger :=
  (l.ops.length, { l with ops := l.ops ++ [transferOpRecord l request] })

/-- The `availableBalance` switch of `applyBalanceOperation` ('transfer'
matches no case and leaves the value unchanged). -/
def newAvailable (balance : Balance) (operationType : OpType) (amount : Int) : Int :=
  match operationType with
  | .credit => balance.availableBalance + amount
  | .debit => balance.availableBalance - amount
  | .reserve => balance.availableBalance - amount
  | .release => balance.availableBalance + amount
  | .transfer => balance.availableBalance

/-- The `reservedBalance` switch of `applyBalanceOperation`. -/
def newReserved (balance : Balance) (operationType : OpType) (amount : Int) : Int :=
  match operationType with
  | .reserve => balance.reservedBalance + amount
  | .release => balance.reservedBalance - amount
  | _ => balance.reservedBalance

/-- `applyBalanceOperation`: compute the new available/reserved from the
*passed* `balance` object, recompute `total_balance = available + reserved`,
and `UPDATE balances ... WHERE account_id AND currency` match the passed
object's key, returning the updated row.  If no row matches, `result.rows[0]`
is undefined and the JS code throws (`none` here). -/
def applyBalanceOperation (l : Ledger) (balance : Balance) (operationType : OpType)
    (amount : Int) : Option (Balance × Ledger) :=
  let availableBalance := newAvailable balance operationType amount
  let reservedBalance := newReserved balance operationType amount
  let totalBalance := availableBalance + reservedBalance
  match getBalance l balance.accountId balance.currency with
  | none => none
  | some row =>
    let newRow : Balance :=
      { row with
         availableBalance := availableBalance
         reservedBalance := reservedBalance
         totalBalance := totalBalance }
    some (newRow,
      { l with balances :=
          l.balances.map (fun b => if balKey balance.accountId balance.currency b
                                   then newRow else b) })

/-- `completeBalanceOperation`:
`UPDATE balance_operations SET status = 'completed', processed_at = now WHERE id = $1`. -/
def completeBalanceOperation (l : Ledger) (operationId : Nat) : Ledger :=
  { l with ops := l.ops.map (fun op =>
      if op.id == operationId
      then { op with status := OpStatus.completed, processedAt := true }
      else op) }

/-- `updateBalance`: one transaction around validate → insert pending
operation → apply → mark completed.  The only amount guard is
`amount.isZero()` (`Amount cannot be zero`); negative amounts pass. -/
def updateBalance (l : Ledger) (request : BalanceUpdateRequest) :
    Except String (Balance × Ledger) :=
  if request.amount = 0 then .error "Amount cannot be zero"
  else
    let gc := getOrCreateBalance l request.accountId request.currency
    match validateBalanceOperation gc.1 request.operationType.toOpType request.amount with
    | .error e => .error e
    | .ok _ =>
      let co := createBalanceOperation gc.2 request
      match applyBalanceOperation co.2 gc.1 request.operationType.toOpType request.amount with
      | none => .error "Failed to update balance"
      | some (balance2, l3) => .ok (balance2, completeBalanceOperation l3 co.1)

/-- `transferBalance`: one transaction: positivity guard, fetch-or-create both
balances (in this order), sufficiency check on the source, insert one transfer
operation, debit the source, credit the destination *using the `toBalance`
object read before the debit*, mark completed.  There is no
fromAccountId == toAccountId guard. -/
def transferBalance (l : Ledger) (request : TransferRequest) :
    Except String (Balance × Balance × Nat × Ledger) :=
  if request.amount ≤ 0 then .error "Transfer amount must be positive"
  else
    let gf := getOrCreateBalance l request.fromAccountId request.currency
    let gt := getOrCreateBalance gf.2 request.toAccountId request.currency
    if gf.1.availableBalance < request.amount then .error "Insufficient balance for transfer"
    else
      let ct := createTransferOperation gt.2 request
      match applyBalanceOperation ct.2 gf.1 .debit request.amount with
      | none => .error "Failed to transfer balance"
      | some (updatedFromBalance, l4) =>
        match applyBalanceOperation l4 gt.1 .credit request.amount with
        | none => .error "Failed to transfer balance"
        | some (updatedToBalance, l5) =>
          .ok (updatedFromBalance, updatedToBalance, ct.1,
               completeBalanceOperation l5 ct.1)

/-- Committed state after an `updateBalance` call: `COMMIT` keeps the new
ledger, any thrown error triggers `ROLLBACK` and the pre-call state stands. -/
def runUpdate (l : Ledger) (request : BalanceUpdateRequest) : Ledger :=
  match updateBalance l request with
  | .ok (_, l') => l'
  | .error _ => l

/-- Committed state after a `transferBalance` call. -/
def runTransfer (l : Ledger) (request : TransferRequest) : Ledger :=
  match transferBalance l request with
  | .ok (_, _, _, l') => l'
  | .error _ => l

/-- Insertion step of `ORDER BY currency` (ascending). -/
def insertByCurrency (b : Balance) : List Balance → List Balance
  | [] => [b]
  | x :: xs =>
    if x.currency < b.currency then x :: insertByCurrency b xs else b :: x :: xs

/-- `ORDER BY currency` as an insertion sort. -/
def sortByCurrency : List Balance → List Balance
  | [] => []
  | x :: xs => insertByCurrency x (sortByCurrency xs)

/-- `getAllBalances`:
`SELECT * FROM balances WHERE account_id = $1 ORDER BY currency`. -/
def getAllBalances (l : Ledger) (accountId : String) : List Balance :=
  sortByCurrency (l.balances.filter (fun b => b.accountId == accountId))

/-- Key predicate for a `balance_snapshots` row. -/
def snapKey (accountId currency date : String) (s : SnapshotRow) : Bool :=
  s.accountId == accountId && s.currency == currency && s.snapshotDate == date

/-- `INSERT ... ON CONFLICT (account_id, currency, snapshot_date) DO UPDATE`:
replace the conflicting row(s), else append. -/
def upsertSnapshot (snaps : List SnapshotRow) (row : SnapshotRow) : List SnapshotRow :=
  if snaps.any (snapKey row.accountId row.currency row.snapshotDate)
  then snaps.map (fun s => if snapKey row.accountId row.currency row.snapshotDate s
                           then row else s)
  else snaps ++ [row]

/-- The snapshot row written for one balance by `createDailySnapshot`. -/
def snapshotOf (accountId date : String) (balance : Balance) : SnapshotRow :=
  { accountId := accountId
    currency := balance.currency
    snapshotDate := date
    availableBalance := balance.availableBalance
    pendingBalance := balance.pendingBalance
    totalBalance := balance.totalBalance
    reservedBalance := balance.reservedBalance }

/-- `createDailySnapshot(accountId, date)`: read all balances of the account
and upsert one snapshot row per currency for that date (the date argument is
already formatted `YYYY-MM-DD`; we take it as a string). -/
def createDailySnapshot (l : Ledger) (accountId : String) (date : String) : Ledger :=
  let snaps2 := (getAllBalances l accountId).foldl
    (fun snaps balance => upsertSnapshot snaps (snapshotOf accountId date balance))
    l.snapshots
  { l with snapshots := snaps2 }

/-- States reachable through the public mutating operations, starting from an
empty store (balances are created lazily, zeroed, on first use). -/
inductive Reachable : Ledger → Prop where
  | init : Reachable emptyLedger
  | update (r : BalanceUpdateRequest) {l : Ledger} :
      Reachable l → Reachable (runUpdate l r)
  | xfer (r : TransferRequest) {l : Ledger} :
      Reachable l → Reachable (runTransfer l r)

/-- Reachability when every `updateBalance` caller supplies a positive amount
(`transferBalance` enforces positivity itself). -/
inductive ReachablePos : Ledger → Prop where
  | init : ReachablePos emptyLedger
  | update (r : BalanceUpdateRequest) {l : Ledger} :
      0 < r.amount → ReachablePos l → ReachablePos (runUpdate l r)
  | xfer (r : TransferRequest) {l : Ledger} :
      ReachablePos l → ReachablePos (runTransfer l r)

/-! ### Structural lemmas about the store operations -/

theorem balKey_true_iff {a c : String} {b : Balance} :
    balKey a c b = true ↔ b.accountId = a ∧ b.currency = c := by
  simp [balKey]

theorem getOrCreateBalance_ops (l : Ledger) (a c : String) :
    (getOrCreateBalance l a c).2.ops = l.ops := by
  unfold getOrCreateBalance
  split <;> rfl

theorem getOrCreateBalance_snapshots (l : Ledger) (a c : String) :
    (getOrCreateBalance l a c).2.snapshots = l.snapshots := by
  unfold getOrCreateBalance
  split <;> rfl

theorem getBalance_getOrCreateBalance (l : Ledger) (a c : String) :
    getBalance (getOrCreateBalance l a c).2 a c = some (getOrCreateBalance l a c).1 := by
  unfold getOrCreateBalance
  cases hg : getBalance l a c with
  | some b => simpa using hg
  | none =>
    unfold getBalance at hg ⊢
    simp [List.find?_append, hg, balKey, zeroBalance]

theorem getOrCreateBalance_fst_mem (l : Ledger) (a c : String) :
    (getOrCreateBalance l a c).1 ∈ (getOrCreateBalance l a c).2.balances :=
  List.mem_of_find?_eq_some (getBalance_getOrCreateBalance l a c)

theorem getOrCreateBalance_key (l : Ledger) (a c : String) :
    (getOrCreateBalance l a c).1.accountId = a ∧ (getOrCreateBalance l a c).1.currency = c :=
  balKey_true_iff.1 (List.find?_some (getBalance_getOrCreateBalance l a c))

theorem getOrCreateBalance_mem_or {l : Ledger} {a c : String} {x : Balance}
    (hx : x ∈ (getOrCreateBalance l a c).2.balances) :
    x ∈ l.balances ∨ x = zeroBalance a c := by
  unfold getOrCreateBalance at hx
  cases hg : getBalance l a c with
  | some b => rw [hg] at hx; exact Or.inl hx
  | none =>
    rw [hg] at hx
    simpa using List.mem_append.1 hx

theorem getBalance_getOrCreateBalance_other {l : Ledger} {a c a₂ c₂ : String} {b : Balance}
    (hb : getBalance l a₂ c₂ = some b) :
    getBalance (getOrCreateBalance l a c).2 a₂ c₂ = some b := by
  unfold getOrCreateBalance
  cases hg : getBalance l a c with
  | some x => simpa using hb
  | none =>
    unfold getBalance at hb ⊢
    simp [List.find?_append, hb]

theorem createBalanceOperation_balances (l : Ledger) (r : BalanceUpdateRequest) :
    (createBalanceOperation l r).2.balances = l.balances := rfl

theorem createBalanceOperation_snapshots (l : Ledger) (r : BalanceUpdateRequest) :
    (createBalanceOperation l r).2.snapshots = l.snapshots := rfl

theorem createBalanceOperation_ops (l : Ledger) (r : BalanceUpdateRequest) :
    (createBalanceOperation l r).2.ops = l.ops ++ [updateOpRecord l r] := rfl

theorem createTransferOperation_balances (l : Ledger) (r : TransferRequest) :
    (createTransferOperation l r).2.balances = l.balances := rfl

theorem createTransferOperation_snapshots (l : Ledger) (r : TransferRequest) :
    (createTransferOperation l r).2.snapshots = l.snapshots := rfl

theorem createTransferOperation_ops (l : Ledger) (r : TransferRequest) :
    (createTransferOperation l r).2.ops = l.ops ++ [transferOpRecord l r] := rfl

theorem completeBalanceOperation_balances (l : Ledger) (i : Nat) :
    (completeBalanceOperation l i).balances = l.balances := rfl

theorem completeBalanceOperation_snapshots (l : Ledger) (i : Nat) :
    (completeBalanceOperation l i).snapshots = l.snapshots := rfl

/-- The row and ledger produced by a successful `applyBalanceOperation`. -/
def appliedRow (row b : Balance) (t : OpType) (amt : Int) : Balance :=
  { row with
     availableBalance := newAvailable b t amt
     reservedBalance := newReserved b t amt
     totalBalance := newAvailable b t amt + newReserved b t amt }

theorem applyBalanceOperation_eq_some {l : Ledger} {b : Balance} {t : OpType} {v : Int}
    {row : Balance} (hrow : getBalance l b.accountId b.currency = some row) :
    applyBalanceOperation l b t v = some
      (appliedRow row b t v,
       { l with balances := l.balances.map (fun x =>
           if balKey b.accountId b.currency x then appliedRow row b t v else x) }) := by
  unfold applyBalanceOperation appliedRow
  rw [hrow]

theorem applyBalanceOperation_some_elim {l : Ledger} {b : Balance} {t : OpType} {amt : Int}
    {b₂ : Balance} {l' : Ledger} (h : applyBalanceOperation l b t amt = some (b₂, l')) :
    ∃ row, getBalance l b.accountId b.currency = some row ∧
      b₂ = appliedRow row b t amt ∧
      l'.balances = l.balances.map (fun x =>
        if balKey b.accountId b.currency x then b₂ else x) ∧
      l'.ops = l.ops ∧ l'.snapshots = l.snapshots := by
  cases hrow : getBalance l b.accountId b.currency with
  | none =>
    unfold applyBalanceOperation at h
    rw [hrow] at h
    exact Option.noConfusion h
  | some row =>
    rw [applyBalanceOperation_eq_some hrow] at h
    injection h with h'
    rw [Prod.mk.injEq] at h'
    obtain ⟨h1, h2⟩ := h'
    subst h1
    subst h2
    exact ⟨row, rfl, rfl, rfl, rfl, rfl⟩

/-- Replacing every `p`-matching element of a list by a fixed `p`-matching
value rewrites the result of `find? p` to that value. -/
theorem find?_map_ite {α : Type} {p : α → Bool} {y : α} (hy : p y = true) (xs : List α) :
    (xs.map (fun x => if p x then y else x)).find? p = (xs.find? p).map (fun _ => y) := by
  induction xs with
  | nil => rfl
  | cons x xs ih =>
    cases hx : p x with
    | true => simp [List.find?_cons, hx, hy]
    | false => simp [List.find?_cons, hx, ih]

/-- Replacing `p`-matching elements by a `q`-free value leaves `find? q`
untouched, when no element can match both `p` and `q`. -/
theorem find?_map_ite_of_disjoint {α : Type} {p q : α → Bool} {y : α}
    (hpq : ∀ x, q x = true → p x = false) (hyq : q y = false) (xs : List α) :
    (xs.map (fun x => if p x then y else x)).find? q = xs.find? q := by
  induction xs with
  | nil => rfl
  | cons x xs ih =>
    cases hx : p x with
    | true =>
      have hqx : q x = false := by
        cases hqx : q x with
        | false => rfl
        | true => rw [hpq x hqx] at hx; exact Bool.noConfusion hx
      simp [List.find?_cons, hx, hyq, hqx, ih]
    | false =>
      cases hqx : q x with
      | true => simp [List.find?_cons, hx, hqx]
      | false => simp [List.find?_cons, hx, hqx, ih]

/-! ### Dissection of `updateBalance` and `transferBalance` -/

theorem updateBalance_ok_elim {l : Ledger} {r : BalanceUpdateRequest} {b' : Balance}
    {l' : Ledger} (h : updateBalance l r = Except.ok (b', l')) :
    r.amount ≠ 0 ∧
    validateBalanceOperation (getOrCreateBalance l r.accountId r.currency).1
        r.operationType.toOpType r.amount = Except.ok () ∧
    ∃ l₃, applyBalanceOperation
          (createBalanceOperation (getOrCreateBalance l r.accountId r.currency).2 r).2
          (getOrCreateBalance l r.accountId r.currency).1 r.operationType.toOpType r.amount
        = some (b', l₃) ∧
      l' = completeBalanceOperation l₃
          (createBalanceOperation (getOrCreateBalance l r.accountId r.currency).2 r).1 := by
  simp only [updateBalance] at h
  split at h
  next hz => exact Except.noConfusion h
  next hz =>
    split at h
    next e hv => exact Except.noConfusion h
    next u hv =>
      split at h
      next ha => exact Except.noConfusion h
      next b₂ l₃ ha =>
        injection h with h'
        rw [Prod.mk.injEq] at h'
        obtain ⟨h1, h2⟩ := h'
        subst h1
        subst h2
        exact ⟨hz, hv, l₃, ha, rfl⟩

theorem transferBalance_ok_elim {l : Ledger} {r : TransferRequest} {fb tb : Balance}
    {tid : Nat} {l' : Ledger} (h : transferBalance l r = Except.ok (fb, tb, tid, l')) :
    ¬ r.amount ≤ 0 ∧
    ¬ (getOrCreateBalance l r.fromAccountId r.currency).1.availableBalance < r.amount ∧
    tid = (createTransferOperation
        (getOrCreateBalance (getOrCreateBalance l r.fromAccountId r.currency).2
          r.toAccountId r.currency).2 r).1 ∧
    ∃ l₄ l₅, applyBalanceOperation
          (createTransferOperation
            (getOrCreateBalance (getOrCreateBalance l r.fromAccountId r.currency).2
              r.toAccountId r.currency).2 r).2
          (getOrCreateBalance l r.fromAccountId r.currency).1 .debit r.amount
        = some (fb, l₄) ∧
      applyBalanceOperation l₄
          (getOrCreateBalance (getOrCreateBalance l r.fromAccountId r.currency).2
            r.toAccountId r.currency).1 .credit r.amount
        = some (tb, l₅) ∧
      l' = completeBalanceOperation l₅ tid := by
  simp only [transferBalance] at h
  split at h
  next hz => exact Except.noConfusion h
  next hz =>
    split at h
    next hs => exact Except.noConfusion h
    next hs =>
      split at h
      next ha => exact Except.noConfusion h
      next fb₂ l₄ ha =>
        split at h
        next hb => exact Except.noConfusion h
        next tb₂ l₅ hb =>
          injection h with h'
          rw [Prod.mk.injEq, Prod.mk.injEq, Prod.mk.injEq] at h'
          obtain ⟨h1, h2, h3, h4⟩ := h'
          subst h1
          subst h2
          subst h3
          subst h4
          exact ⟨hz, hs, rfl, l₄, l₅, ha, hb, rfl⟩

theorem updateBalance_eq_ok {l : Ledger} {r : BalanceUpdateRequest} {b₂ : Balance}
    {l₃ : Ledger} (hz : ¬ r.amount = 0)
    (hv : validateBalanceOperation (getOrCreateBalance l r.accountId r.currency).1
        r.operationType.toOpType r.amount = Except.ok ())
    (ha : applyBalanceOperation
        (createBalanceOperation (getOrCreateBalance l r.accountId r.currency).2 r).2
        (getOrCreateBalance l r.accountId r.currency).1 r.operationType.toOpType r.amount
      = some (b₂, l₃)) :
    updateBalance l r = Except.ok (b₂, completeBalanceOperation l₃
      (createBalanceOperation (getOrCreateBalance l r.accountId r.currency).2 r).1) := by
  simp only [updateBalance]
  rw [if_neg hz, hv, ha]

theorem transferBalance_eq_ok {l : Ledger} {r : TransferRequest} {fb tb : Balance}
    {l₄ l₅ : Ledger} (hz : ¬ r.amount ≤ 0)
    (hs : ¬ (getOrCreateBalance l r.fromAccountId r.currency).1.availableBalance < r.amount)
    (ha : applyBalanceOperation
        (createTransferOperation
          (getOrCreateBalance (getOrCreateBalance l r.fromAccountId r.currency).2
            r.toAccountId r.currency).2 r).2
        (getOrCreateBalance l r.fromAccountId r.currency).1 .debit r.amount
      = some (fb, l₄))
    (hb : applyBalanceOperation l₄
        (getOrCreateBalance (getOrCreateBalance l r.fromAccountId r.currency).2
          r.toAccountId r.currency).1 .credit r.amount
      = some (tb, l₅)) :
    transferBalance l r = Except.ok (fb, tb,
      (createTransferOperation
        (getOrCreateBalance (getOrCreateBalance l r.fromAccountId r.currency).2
          r.toAccountId r.currency).2 r).1,
      completeBalanceOperation l₅
        (createTransferOperation
          (getOrCreateBalance (getOrCreateBalance l r.fromAccountId r.currency).2
            r.toAccountId r.currency).2 r).1) := by
  simp only [transferBalance]
  rw [if_neg hz, if_neg hs, ha]
  dsimp only
  rw [hb]

theorem runUpdate_cases (l : Ledger) (r : BalanceUpdateRequest) :
    runUpdate l r = l ∨ ∃ b', updateBalance l r = Except.ok (b', runUpdate l r) := by
  unfold runUpdate
  split
  next b' l' heq => exact Or.inr ⟨b', heq⟩
  next e heq => exact Or.inl rfl

theorem runTransfer_cases (l : Ledger) (r : TransferRequest) :
    runTransfer l r = l ∨
    ∃ fb tb tid, transferBalance l r = Except.ok (fb, tb, tid, runTransfer l r) := by
  unfold runTransfer
  split
  next fb tb tid l' heq => exact Or.inr ⟨fb, tb, tid, heq⟩
  next e heq => exact Or.inl rfl

/-- A per-row property survives `applyBalanceOperation` when the freshly
written row has it. -/
theorem applyBalanceOperation_forall {l : Ledger} {b : Balance} {t : OpType} {amt : Int}
    {b₂ : Balance} {l' : Ledger} {P : Balance → Prop}
    (h : applyBalanceOperation l b t amt = some (b₂, l'))
    (hall : ∀ x ∈ l.balances, P x) (hb₂ : P b₂) :
    ∀ x ∈ l'.balances, P x := by
  obtain ⟨row, hrow, hb2, hbal, -, -⟩ := applyBalanceOperation_some_elim h
  rw [hbal]
  intro x hx
  obtain ⟨y, hy, hxy⟩ := List.mem_map.1 hx
  cases hk : balKey b.accountId b.currency y with
  | true => rw [if_pos (by simp [hk])] at hxy; exact hxy ▸ hb₂
  | false => rw [if_neg (by simp [hk])] at hxy; exact hxy ▸ hall y hy

theorem validate_debit {b : Balance} {amt : Int}
    (h : validateBalanceOperation b .debit amt = Except.ok ()) :
    amt ≤ b.availableBalance := by
  by_contra hlt
  rw [not_le] at hlt
  simp [validateBalanceOperation, hlt] at h

theorem validate_reserve {b : Balance} {amt : Int}
    (h : validateBalanceOperation b .reserve amt = Except.ok ()) :
    amt ≤ b.availableBalance := by
  by_contra hlt
  rw [not_le] at hlt
  simp [validateBalanceOperation, hlt] at h

theorem validate_release {b : Balance} {amt : Int}
    (h : validateBalanceOperation b .release amt = Except.ok ()) :
    amt ≤ b.reservedBalance := by
  by_contra hlt
  rw [not_le] at hlt
  simp [validateBalanceOperation, hlt] at h

/-! ### Invariants preserved by the public operations -/

/-- `total_balance` is the sum of the other two columns on every row. -/
def TotalInv (l : Ledger) : Prop :=
  ∀ x ∈ l.balances, x.totalBalance = x.availableBalance + x.reservedBalance

/-- No row carries a negative available or reserved balance. -/
def NonnegInv (l : Ledger) : Prop :=
  ∀ x ∈ l.balances, 0 ≤ x.availableBalance ∧ 0 ≤ x.reservedBalance

/-- Every committed operation row is 'completed' with `processed_at` set. -/
def CompletedInv (l : Ledger) : Prop :=
  ∀ op ∈ l.ops, op.status = OpStatus.completed ∧ op.processedAt = true

theorem totalInv_getOrCreate {l : Ledger} (a c : String) (h : TotalInv l) :
    TotalInv (getOrCreateBalance l a c).2 := by
  intro x hx
  rcases getOrCreateBalance_mem_or hx with hmem | rfl
  · exact h x hmem
  · simp [zeroBalance]

theorem nonnegInv_getOrCreate {l : Ledger} (a c : String) (h : NonnegInv l) :
    NonnegInv (getOrCreateBalance l a c).2 := by
  intro x hx
  rcases getOrCreateBalance_mem_or hx with hmem | rfl
  · exact h x hmem
  · simp [zeroBalance]

theorem totalInv_runUpdate {l : Ledger} (r : BalanceUpdateRequest) (h : TotalInv l) :
    TotalInv (runUpdate l r) := by
  rcases runUpdate_cases l r with heq | ⟨b', hu⟩
  · rw [heq]; exact h
  · obtain ⟨-, -, l₃, ha, hl'⟩ := updateBalance_ok_elim hu
    obtain ⟨row, hrow, hb2eq, -, -, -⟩ := applyBalanceOperation_some_elim ha
    rw [hl']
    intro x hx
    rw [completeBalanceOperation_balances] at hx
    exact applyBalanceOperation_forall ha
      (fun y hy => totalInv_getOrCreate r.accountId r.currency h y hy)
      (by rw [hb2eq]; rfl) x hx

theorem totalInv_runTransfer {l : Ledger} (r : TransferRequest) (h : TotalInv l) :
    TotalInv (runTransfer l r) := by
  rcases runTransfer_cases l r with heq | ⟨fb, tb, tid, hu⟩
  · rw [heq]; exact h
  · obtain ⟨hz, hs, htid, l₄, l₅, ha, hb, hl'⟩ := transferBalance_ok_elim hu
    obtain ⟨rowF, hrowF, hfbeq, -, -, -⟩ := applyBalanceOperation_some_elim ha
    obtain ⟨rowT, hrowT, htbeq, -, -, -⟩ := applyBalanceOperation_some_elim hb
    have hgt : TotalInv (getOrCreateBalance (getOrCreateBalance l r.fromAccountId
        r.currency).2 r.toAccountId r.currency).2 :=
      totalInv_getOrCreate _ _ (totalInv_getOrCreate _ _ h)
    have h4 : ∀ x ∈ l₄.balances, x.totalBalance = x.availableBalance + x.reservedBalance :=
      applyBalanceOperation_forall ha (fun y hy => hgt y hy) (by rw [hfbeq]; rfl)
    have h5 : ∀ x ∈ l₅.balances, x.totalBalance = x.availableBalance + x.reservedBalance :=
      applyBalanceOperation_forall hb h4 (by rw [htbeq]; rfl)
    rw [hl']
    intro x hx
    rw [completeBalanceOperation_balances] at hx
    exact h5 x hx

theorem nonnegInv_runUpdate {l : Ledger} {r : BalanceUpdateRequest}
    (hpos : 0 < r.amount) (h : NonnegInv l) : NonnegInv (runUpdate l r) := by
  rcases runUpdate_cases l r with heq | ⟨b', hu⟩
  · rw [heq]; exact h
  · obtain ⟨-, hv, l₃, ha, hl'⟩ := updateBalance_ok_elim hu
    obtain ⟨row, hrow, hb2eq, -, -, -⟩ := applyBalanceOperation_some_elim ha
    have hgc : NonnegInv (getOrCreateBalance l r.accountId r.currency).2 :=
      nonnegInv_getOrCreate _ _ h
    obtain ⟨hava, hres⟩ :=
      hgc _ (getOrCreateBalance_fst_mem l r.accountId r.currency)
    have hb2 : 0 ≤ b'.availableBalance ∧ 0 ≤ b'.reservedBalance := by
      rw [hb2eq]
      cases ht : r.operationType
      all_goals rw [ht] at hv
      case credit =>
        dsimp only [appliedRow, UpdateOpType.toOpType, newAvailable, newReserved]
        omega
      case debit =>
        have hd := validate_debit hv
        dsimp only [appliedRow, UpdateOpType.toOpType, newAvailable, newReserved]
        omega
      case reserve =>
        have hd := validate_reserve hv
        dsimp only [appliedRow, UpdateOpType.toOpType, newAvailable, newReserved]
        omega
      case release =>
        have hd := validate_release hv
        dsimp only [appliedRow, UpdateOpType.toOpType, newAvailable, newReserved]
        omega
    rw [hl']
    intro x hx
    rw [completeBalanceOperation_balances] at hx
    exact applyBalanceOperation_forall ha (fun y hy => hgc y hy) hb2 x hx

theorem nonnegInv_runTransfer {l : Ledger} (r : TransferRequest) (h : NonnegInv l) :
    NonnegInv (runTransfer l r) := by
  rcases runTransfer_cases l r with heq | ⟨fb, tb, tid, hu⟩
  · rw [heq]; exact h
  · obtain ⟨hz, hs, htid, l₄, l₅, ha, hb, hl'⟩ := transferBalance_ok_elim hu
    obtain ⟨rowF, hrowF, hfbeq, -, -, -⟩ := applyBalanceOperation_some_elim ha
    obtain ⟨rowT, hrowT, htbeq, -, -, -⟩ := applyBalanceOperation_some_elim hb
    have hgf : NonnegInv (getOrCreateBalance l r.fromAccountId r.currency).2 :=
      nonnegInv_getOrCreate _ _ h
    have hgt : NonnegInv (getOrCreateBalance (getOrCreateBalance l r.fromAccountId
        r.currency).2 r.toAccountId r.currency).2 :=
      nonnegInv_getOrCreate _ _ hgf
    obtain ⟨hfa, hfr⟩ :=
      hgf _ (getOrCreateBalance_fst_mem l r.fromAccountId r.currency)
    obtain ⟨hta, htr⟩ :=
      hgt _ (getOrCreateBalance_fst_mem _ r.toAccountId r.currency)
    rw [not_le] at hz
    rw [not_lt] at hs
    have hfb2 : 0 ≤ fb.availableBalance ∧ 0 ≤ fb.reservedBalance := by
      rw [hfbeq]
      dsimp only [appliedRow, newAvailable, newReserved]
      omega
    have htb2 : 0 ≤ tb.availableBalance ∧ 0 ≤ tb.reservedBalance := by
      rw [htbeq]
      dsimp only [appliedRow, newAvailable, newReserved]
      omega
    have h4 : ∀ x ∈ l₄.balances, 0 ≤ x.availableBalance ∧ 0 ≤ x.reservedBalance :=
      applyBalanceOperation_forall ha (fun y hy => hgt y hy) hfb2
    have h5 : ∀ x ∈ l₅.balances, 0 ≤ x.availableBalance ∧ 0 ≤ x.reservedBalance :=
      applyBalanceOperation_forall hb h4 htb2
    rw [hl']
    intro x hx
    rw [completeBalanceOperation_balances] at hx
    exact h5 x hx

theorem completedInv_complete {l : Ledger} {i : Nat}
    (h : ∀ op ∈ l.ops, op.id = i ∨ (op.status = OpStatus.completed ∧ op.processedAt = true)) :
    CompletedInv (completeBalanceOperation l i) := by
  intro op hop
  obtain ⟨y, hy, hxy⟩ := List.mem_map.1 hop
  cases hk : (y.id == i) with
  | true =>
    rw [if_pos (by simp [hk])] at hxy
    exact hxy ▸ ⟨rfl, rfl⟩
  | false =>
    rw [if_neg (by simp [hk])] at hxy
    rcases h y hy with hid | hdone
    · rw [hid] at hk
      simp at hk
    · exact hxy ▸ hdone

theorem completedInv_runUpdate {l : Ledger} (r : BalanceUpdateRequest)
    (h : CompletedInv l) : CompletedInv (runUpdate l r) := by
  rcases runUpdate_cases l r with heq | ⟨b', hu⟩
  · rw [heq]; exact h
  · obtain ⟨-, -, l₃, ha, hl'⟩ := updateBalance_ok_elim hu
    obtain ⟨row, hrow, -, -, hops3, -⟩ := applyBalanceOperation_some_elim ha
    rw [hl']
    apply completedInv_complete
    intro op hop
    rw [hops3, createBalanceOperation_ops] at hop
    rcases List.mem_append.1 hop with hold | hnew
    · rw [getOrCreateBalance_ops] at hold
      exact Or.inr (h op hold)
    · rw [List.mem_singleton] at hnew
      exact Or.inl (hnew ▸ rfl)

theorem completedInv_runTransfer {l : Ledger} (r : TransferRequest)
    (h : CompletedInv l) : CompletedInv (runTransfer l r) := by
  rcases runTransfer_cases l r with heq | ⟨fb, tb, tid, hu⟩
  · rw [heq]; exact h
  · obtain ⟨hz, hs, htid, l₄, l₅, ha, hb, hl'⟩ := transferBalance_ok_elim hu
    obtain ⟨rowF, hrowF, -, -, hops4, -⟩ := applyBalanceOperation_some_elim ha
    obtain ⟨rowT, hrowT, -, -, hops5, -⟩ := applyBalanceOperation_some_elim hb
    rw [hl', htid]
    apply completedInv_complete
    intro op hop
    rw [hops5, hops4, createTransferOperation_ops] at hop
    rcases List.mem_append.1 hop with hold | hnew
    · rw [getOrCreateBalance_ops, getOrCreateBalance_ops] at hold
      exact Or.inr (h op hold)
    · rw [List.mem_singleton] at hnew
      exact Or.inl (hnew ▸ rfl)

theorem getBalance_createBalanceOperation (l : Ledger) (r : BalanceUpdateRequest)
    (a c : String) : getBalance (createBalanceOperation l r).2 a c = getBalance l a c := rfl

theorem getBalance_createTransferOperation (l : Ledger) (r : TransferRequest)
    (a c : String) : getBalance (createTransferOperation l r).2 a c = getBalance l a c := rfl

theorem getBalance_completeBalanceOperation (l : Ledger) (i : Nat) (a c : String) :
    getBalance (completeBalanceOperation l i) a c = getBalance l a c := rfl

/-! ### Concrete data used by witnesses and counterexamples -/

def wReq1 : BalanceUpdateRequest :=
  { accountId := "acct-1", amount := 5, currency := "USD", operationType := .credit,
    reference := "ref-1", description := "seed credit" }

def wLedger1 : Ledger := runUpdate emptyLedger wReq1

def wBal1 : Balance :=
  { accountId := "acct-1", currency := "USD", availableBalance := 5,
    pendingBalance := 0, totalBalance := 5, reservedBalance := 0 }

def wOp1 : BalanceOperation :=
  { id := 0, accountId := "acct-1", operationType := .credit, amount := 5,
    currency := "USD", reference := "ref-1", description := "seed credit",
    metadata := {}, status := .completed, processedAt := true }

def negCreditReq : BalanceUpdateRequest :=
  { accountId := "acct-1", amount := -5, currency := "USD", operationType := .credit,
    reference := "ref-neg", description := "negative credit" }

/-! ### Claim theorems -/

/-- C1: in every ledger state reachable through the public operations
(`updateBalance` with type credit/debit/reserve/release, and
`transferBalance`), every persisted balance row satisfies
`totalBalance = availableBalance + reservedBalance`; the total is always the
recomputed sum `available + reserved` (see `applyBalanceOperation`, which
writes `totalBalance := availableBalance + reservedBalance` on every
mutation), never an independently mutated field. -/
theorem reachable_totalBalance_eq_sum {l : Ledger} (h : Reachable l) :
    ∀ b ∈ l.balances, b.totalBalance = b.availableBalance + b.reservedBalance := by
  induction h with
  | init => intro b hb; cases hb
  | update r _ ih => exact totalInv_runUpdate r ih
  | xfer r _ ih => exact totalInv_runTransfer r ih

/-- Witness for C1: a concrete reachable ledger (a 5-unit credit applied to
the empty store) whose persisted balance row satisfies the invariant. -/
theorem reachable_totalBalance_eq_sum_witness :
    wBal1.totalBalance = wBal1.availableBalance + wBal1.reservedBalance :=
  reachable_totalBalance_eq_sum (Reachable.update wReq1 Reachable.init) wBal1 (by decide)

/-- C2 counterexample: the claim "no sequence of `updateBalance` or
`transferBalance` calls, with any caller-supplied amounts, can drive either
field negative" is false: `updateBalance` only rejects `amount = 0`
('Amount cannot be zero'), so a credit of −5 starting from the empty store
commits and leaves `availableBalance = −5 < 0` in a reachable state. -/
theorem reachable_negative_available :
    Reachable (runUpdate emptyLedger negCreditReq) ∧
    (getBalance (runUpdate emptyLedger negCreditReq) "acct-1" "USD").any
      (fun b => decide (b.availableBalance < 0)) = true :=
  ⟨Reachable.update negCreditReq Reachable.init, by decide⟩

/-- C2 (amended): if every `updateBalance` call carries a positive amount
(`transferBalance` enforces positivity itself), then in every reachable state
`availableBalance ≥ 0` and `reservedBalance ≥ 0` hold for all balance rows.
The unamended claim fails because `updateBalance` accepts negative amounts
(see `reachable_negative_available`). -/
theorem reachablePos_nonneg {l : Ledger} (h : ReachablePos l) :
    ∀ b ∈ l.balances, 0 ≤ b.availableBalance ∧ 0 ≤ b.reservedBalance := by
  induction h with
  | init => intro b hb; cases hb
  | update r hpos _ ih => exact nonnegInv_runUpdate hpos ih
  | xfer r _ ih => exact nonnegInv_runTransfer r ih

/-- Witness for the amended C2 at a concrete positive-amount history. -/
theorem reachablePos_nonneg_witness :
    0 ≤ wBal1.availableBalance ∧ 0 ≤ wBal1.reservedBalance :=
  reachablePos_nonneg
    (ReachablePos.update wReq1 (by decide) ReachablePos.init) wBal1 (by decide)

/-- C10: every operation record that durably exists after committed
`updateBalance`/`transferBalance` transactions has status 'completed' with
`processed_at` set; in particular no committed record is ever observable as
'pending', 'failed' or 'cancelled' (rolled-back transactions leave no record
at all, and `completeBalanceOperation` is the only status writer). -/
theorem reachable_ops_completed {l : Ledger} (h : Reachable l) :
    ∀ op ∈ l.ops, op.status = OpStatus.completed ∧ op.processedAt = true := by
  induction h with
  | init => intro op hop; cases hop
  | update r _ ih => exact completedInv_runUpdate r ih
  | xfer r _ ih => exact completedInv_runTransfer r ih

/-- Witness for C10: the operation record committed by a concrete
`updateBalance` run is 'completed' with `processed_at` set. -/
theorem reachable_ops_completed_witness :
    wOp1.status = OpStatus.completed ∧ wOp1.processedAt = true :=
  reachable_ops_completed (Reachable.update wReq1 Reachable.init) wOp1 (by decide)

def negCreditReq3 : BalanceUpdateRequest :=
  { accountId := "acct-3", amount := -3, currency := "USD", operationType := .credit,
    reference := "ref-3", description := "negative credit three" }

def zeroReq : BalanceUpdateRequest :=
  { accountId := "acct-z", amount := 0, currency := "USD", operationType := .debit,
    reference := "ref-z", description := "zero amount" }

/-- C3 counterexample: the claim "every operation whose amount is ≤ 0 fails
with an InvalidAmount error" is false: a credit with amount −3 (≤ 0) is
accepted by `updateBalance` and commits a changed ledger — only amount = 0 is
rejected. -/
theorem updateBalance_accepts_negative_amount :
    (updateBalance emptyLedger negCreditReq3).isOk = true ∧
    runUpdate emptyLedger negCreditReq3 ≠ emptyLedger :=
  ⟨by decide, by decide⟩

/-- C3 (amended): an operation whose amount is exactly 0 fails with the
invalid-amount error 'Amount cannot be zero' and leaves the ledger (hence the
balance) unchanged; amounts < 0 are not rejected by this guard (see
`updateBalance_accepts_negative_amount`). -/
theorem updateBalance_zero_amount {l : Ledger} {r : BalanceUpdateRequest}
    (h : r.amount = 0) :
    updateBalance l r = Except.error "Amount cannot be zero" ∧ runUpdate l r = l := by
  constructor
  · simp only [updateBalance]
    rw [if_pos h]
  · unfold runUpdate
    simp only [updateBalance]
    rw [if_pos h]

/-- Witness for the amended C3 at a concrete zero-amount request. -/
theorem updateBalance_zero_amount_witness :
    updateBalance emptyLedger zeroReq = Except.error "Amount cannot be zero" ∧
    runUpdate emptyLedger zeroReq = emptyLedger :=
  updateBalance_zero_amount (by decide)

/-- C4: for a debit request with positive amount, `updateBalance` fails
exactly when the stored `availableBalance` is less than the amount (with the
insufficient-funds error 'Insufficient available balance'); on failure the
committed state is exactly the pre-call state, and on success the returned
balance's `availableBalance` has decreased by exactly the amount. -/
theorem debit_fails_iff_insufficient {l : Ledger} {r : BalanceUpdateRequest}
    (ht : r.operationType = .debit) (hpos : 0 < r.amount) :
    ((updateBalance l r = Except.error "Insufficient available balance") ↔
      (getOrCreateBalance l r.accountId r.currency).1.availableBalance < r.amount) ∧
    ((getOrCreateBalance l r.accountId r.currency).1.availableBalance < r.amount →
      runUpdate l r = l) ∧
    (r.amount ≤ (getOrCreateBalance l r.accountId r.currency).1.availableBalance →
      ∃ b' l', updateBalance l r = Except.ok (b', l') ∧
        b'.availableBalance =
          (getOrCreateBalance l r.accountId r.currency).1.availableBalance - r.amount) := by
  have hz : ¬ r.amount = 0 := by omega
  have herr : (getOrCreateBalance l r.accountId r.currency).1.availableBalance < r.amount →
      updateBalance l r = Except.error "Insufficient available balance" := by
    intro hlt
    simp only [updateBalance]
    rw [if_neg hz, ht]
    have hv : validateBalanceOperation (getOrCreateBalance l r.accountId r.currency).1
        UpdateOpType.debit.toOpType r.amount
        = Except.error "Insufficient available balance" := by
      simp only [validateBalanceOperation, UpdateOpType.toOpType]
      rw [if_pos hlt]
    rw [hv]
  have hsucc : r.amount ≤ (getOrCreateBalance l r.accountId r.currency).1.availableBalance →
      ∃ b' l', updateBalance l r = Except.ok (b', l') ∧
        b'.availableBalance =
          (getOrCreateBalance l r.accountId r.currency).1.availableBalance - r.amount := by
    intro hle
    have hv : validateBalanceOperation (getOrCreateBalance l r.accountId r.currency).1
        r.operationType.toOpType r.amount = Except.ok () := by
      rw [ht]
      simp only [validateBalanceOperation, UpdateOpType.toOpType]
      rw [if_neg (not_lt.2 hle)]
    have hkey := getOrCreateBalance_key l r.accountId r.currency
    have hrow : getBalance
        (createBalanceOperation (getOrCreateBalance l r.accountId r.currency).2 r).2
        (getOrCreateBalance l r.accountId r.currency).1.accountId
        (getOrCreateBalance l r.accountId r.currency).1.currency
        = some (getOrCreateBalance l r.accountId r.currency).1 := by
      rw [getBalance_createBalanceOperation, hkey.1, hkey.2]
      exact getBalance_getOrCreateBalance l r.accountId r.currency
    have ha := applyBalanceOperation_eq_some (t := r.operationType.toOpType)
      (v := r.amount) hrow
    refine ⟨_, _, updateBalance_eq_ok hz hv ha, ?_⟩
    rw [ht]
    rfl
  refine ⟨⟨?_, herr⟩, fun hlt => ?_, hsucc⟩
  · intro he
    by_contra hnlt
    obtain ⟨b', l', hok, -⟩ := hsucc (not_lt.1 hnlt)
    rw [hok] at he
    exact Except.noConfusion he
  · unfold runUpdate
    rw [herr hlt]

theorem balKey_false_of_ne_account {a c : String} {x : Balance}
    (h : x.accountId ≠ a) : balKey a c x = false := by
  simp [balKey, h]

/-- After `applyBalanceOperation` writes, reading back the written key yields
the freshly written row. -/
theorem getBalance_after_apply_same {l : Ledger} {b : Balance} {t : OpType} {amt : Int}
    {b₂ : Balance} {l' : Ledger} (h : applyBalanceOperation l b t amt = some (b₂, l')) :
    getBalance l' b.accountId b.currency = some b₂ := by
  obtain ⟨row, hrow, hb2, hbal, -, -⟩ := applyBalanceOperation_some_elim h
  unfold getBalance
  rw [hbal]
  have hkrow := balKey_true_iff.1 (List.find?_some hrow)
  have hy : balKey b.accountId b.currency b₂ = true := by
    rw [hb2]
    exact balKey_true_iff.2 ⟨hkrow.1, hkrow.2⟩
  rw [find?_map_ite hy]
  unfold getBalance at hrow
  rw [hrow]
  rfl

/-- `applyBalanceOperation` leaves rows of every other account untouched. -/
theorem getBalance_after_apply_other {l : Ledger} {b : Balance} {t : OpType} {amt : Int}
    {b₂ : Balance} {l' : Ledger} (h : applyBalanceOperation l b t amt = some (b₂, l'))
    {a c : String} (hne : a ≠ b.accountId) :
    getBalance l' a c = getBalance l a c := by
  obtain ⟨row, hrow, hb2, hbal, -, -⟩ := applyBalanceOperation_some_elim h
  unfold getBalance
  rw [hbal]
  apply find?_map_ite_of_disjoint
  · intro x hx
    exact balKey_false_of_ne_account (by rw [(balKey_true_iff.1 hx).1]; exact hne)
  · apply balKey_false_of_ne_account
    rw [hb2]
    show row.accountId ≠ a
    rw [(balKey_true_iff.1 (List.find?_some hrow)).1]
    exact hne.symm

def wCredit100Req : BalanceUpdateRequest :=
  { accountId := "acct-d", amount := 100, currency := "USD", operationType := .credit,
    reference := "ref-c100", description := "seed one hundred" }

def wLedger100 : Ledger := runUpdate emptyLedger wCredit100Req

def debit150Req : BalanceUpdateRequest :=
  { accountId := "acct-d", amount := 150, currency := "USD", operationType := .debit,
    reference := "ref-d150", description := "debit one fifty" }

/-- Witness for C4: the spec's example — available = 100, debit of 150 is
rejected and the committed state is unchanged. -/
theorem debit_fails_iff_insufficient_witness :
    runUpdate wLedger100 debit150Req = wLedger100 :=
  (debit_fails_iff_insufficient (l := wLedger100) (r := debit150Req)
    (by decide) (by decide)).2.1 (by decide)

def wCreditA50Req : BalanceUpdateRequest :=
  { accountId := "acct-A", amount := 50, currency := "USD", operationType := .credit,
    reference := "ref-a50", description := "seed fifty" }

def wLedgerA50 : Ledger := runUpdate emptyLedger wCreditA50Req

def selfXferReqA : TransferRequest :=
  { fromAccountId := "acct-A", toAccountId := "acct-A", amount := 20, currency := "USD",
    reference := "ref-self-a", description := "self transfer" }

/-- C5 counterexample: the claim quantifies over every transfer with positive
amount and sufficient source funds, but a self-transfer (`from = to`) is such
a transfer and does NOT decrease the source's available balance: starting from
available = 50, `transfer(A→A, 20)` succeeds and commits available = 70,
because the credit leg is computed from the `toBalance` object read before the
debit and overwrites it. -/
theorem transfer_self_counterexample :
    (transferBalance wLedgerA50 selfXferReqA).isOk = true ∧
    (getBalance (runTransfer wLedgerA50 selfXferReqA) "acct-A" "USD").any
      (fun b => decide (b.availableBalance = 70)) = true :=
  ⟨by decide, by decide⟩

/-- C5 (amended): for transfers between two *distinct* accounts with positive
amount and sufficient source funds, `transferBalance` succeeds, the committed
source row's available balance decreases by exactly the amount and the
committed destination row's increases by exactly the amount; and whenever any
step of `transferBalance` fails, the committed state is exactly the pre-call
state (the transaction rolls back, so neither balance changes and no
operation survives).  The unamended claim fails only on self-transfers
(`transfer_self_counterexample`). -/
theorem transfer_moves_amount_and_rolls_back {l : Ledger} {r : TransferRequest}
    (hne : r.fromAccountId ≠ r.toAccountId) (hpos : 0 < r.amount)
    (hsuff : r.amount ≤ (getOrCreateBalance l r.fromAccountId r.currency).1.availableBalance) :
    (∃ fb tb tid l', transferBalance l r = Except.ok (fb, tb, tid, l') ∧
      fb.availableBalance =
        (getOrCreateBalance l r.fromAccountId r.currency).1.availableBalance - r.amount ∧
      tb.availableBalance =
        (getOrCreateBalance (getOrCreateBalance l r.fromAccountId r.currency).2
          r.toAccountId r.currency).1.availableBalance + r.amount ∧
      getBalance l' r.fromAccountId r.currency = some fb ∧
      getBalance l' r.toAccountId r.currency = some tb) ∧
    (∀ (l₀ : Ledger) (r₀ : TransferRequest) (e : String),
      transferBalance l₀ r₀ = Except.error e → runTransfer l₀ r₀ = l₀) := by
  constructor
  · have hz : ¬ r.amount ≤ 0 := not_le.2 hpos
    have hs : ¬ (getOrCreateBalance l r.fromAccountId r.currency).1.availableBalance
        < r.amount := not_lt.2 hsuff
    have hkF := getOrCreateBalance_key l r.fromAccountId r.currency
    have hkT := getOrCreateBalance_key
      (getOrCreateBalance l r.fromAccountId r.currency).2 r.toAccountId r.currency
    have hrowF : getBalance
        (createTransferOperation
          (getOrCreateBalance (getOrCreateBalance l r.fromAccountId r.currency).2
            r.toAccountId r.currency).2 r).2
        (getOrCreateBalance l r.fromAccountId r.currency).1.accountId
        (getOrCreateBalance l r.fromAccountId r.currency).1.currency
        = some (getOrCreateBalance l r.fromAccountId r.currency).1 := by
      rw [getBalance_createTransferOperation, hkF.1, hkF.2]
      exact getBalance_getOrCreateBalance_other
        (getBalance_getOrCreateBalance l r.fromAccountId r.currency)
    have ha := applyBalanceOperation_eq_some (t := .debit) (v := r.amount) hrowF
    obtain ⟨fb, l₄, ha'⟩ : ∃ fb l₄, applyBalanceOperation
        (createTransferOperation
          (getOrCreateBalance (getOrCreateBalance l r.fromAccountId r.currency).2
            r.toAccountId r.currency).2 r).2
        (getOrCreateBalance l r.fromAccountId r.currency).1 OpType.debit r.amount
        = some (fb, l₄) := ⟨_, _, ha⟩
    have hfba : fb.availableBalance =
        (getOrCreateBalance l r.fromAccountId r.currency).1.availableBalance - r.amount := by
      obtain ⟨rowF, hrowF', hfbeq, -, -, -⟩ := applyBalanceOperation_some_elim ha'
      rw [hrowF] at hrowF'
      injection hrowF' with hrowF''
      rw [hfbeq, ← hrowF'']
      rfl
    have hf_same := getBalance_after_apply_same ha'
    have hneT : r.toAccountId ≠
        (getOrCreateBalance l r.fromAccountId r.currency).1.accountId := by
      rw [hkF.1]
      exact hne.symm
    have hrowT : getBalance l₄
        (getOrCreateBalance (getOrCreateBalance l r.fromAccountId r.currency).2
          r.toAccountId r.currency).1.accountId
        (getOrCreateBalance (getOrCreateBalance l r.fromAccountId r.currency).2
          r.toAccountId r.currency).1.currency
        = some (getOrCreateBalance (getOrCreateBalance l r.fromAccountId r.currency).2
            r.toAccountId r.currency).1 := by
      rw [hkT.1, hkT.2, getBalance_after_apply_other ha' hneT,
        getBalance_createTransferOperation]
      exact getBalance_getOrCreateBalance _ r.toAccountId r.currency
    have hb := applyBalanceOperation_eq_some (t := .credit) (v := r.amount) hrowT
    obtain ⟨tb, l₅, hb'⟩ : ∃ tb l₅, applyBalanceOperation l₄
        (getOrCreateBalance (getOrCreateBalance l r.fromAccountId r.currency).2
          r.toAccountId r.currency).1 OpType.credit r.amount
        = some (tb, l₅) := ⟨_, _, hb⟩
    have htba : tb.availableBalance =
        (getOrCreateBalance (getOrCreateBalance l r.fromAccountId r.currency).2
          r.toAccountId r.currency).1.availableBalance + r.amount := by
      obtain ⟨rowT, hrowT', htbeq, -, -, -⟩ := applyBalanceOperation_some_elim hb'
      rw [hrowT] at hrowT'
      injection hrowT' with hrowT''
      rw [htbeq, ← hrowT'']
      rfl
    have hok := transferBalance_eq_ok hz hs ha' hb'
    have hneF : r.fromAccountId ≠
        (getOrCreateBalance (getOrCreateBalance l r.fromAccountId r.currency).2
          r.toAccountId r.currency).1.accountId := by
      rw [hkT.1]
      exact hne
    have hgf : getBalance (completeBalanceOperation l₅
        (createTransferOperation
          (getOrCreateBalance (getOrCreateBalance l r.fromAccountId r.currency).2
            r.toAccountId r.currency).2 r).1) r.fromAccountId r.currency = some fb := by
      rw [getBalance_completeBalanceOperation, getBalance_after_apply_other hb' hneF]
      rw [hkF.1, hkF.2] at hf_same
      exact hf_same
    have hgt : getBalance (completeBalanceOperation l₅
        (createTransferOperation
          (getOrCreateBalance (getOrCreateBalance l r.fromAccountId r.currency).2
            r.toAccountId r.currency).2 r).1) r.toAccountId r.currency = some tb := by
      rw [getBalance_completeBalanceOperation]
      have ht_same := getBalance_after_apply_same hb'
      rw [hkT.1, hkT.2] at ht_same
      exact ht_same
    exact ⟨fb, tb, _, _, hok, hfba, htba, hgf, hgt⟩
  · intro l₀ r₀ e he
    unfold runTransfer
    rw [he]

def wCreditA5Req : BalanceUpdateRequest :=
  { accountId := "acct-A5", amount := 50, currency := "USD", operationType := .credit,
    reference := "ref-a5", description := "seed fifty" }

def wCreditB5Req : BalanceUpdateRequest :=
  { accountId := "acct-B5", amount := 10, currency := "USD", operationType := .credit,
    reference := "ref-b5", description := "seed ten" }

def wLedgerAB : Ledger := runUpdate (runUpdate emptyLedger wCreditA5Req) wCreditB5Req

def xferAB20 : TransferRequest :=
  { fromAccountId := "acct-A5", toAccountId := "acct-B5", amount := 20, currency := "USD",
    reference := "ref-ab20", description := "transfer twenty" }

/-- Witness for the amended C5: the spec's example — A has 50, B has 10,
transferring 20 commits A = 30 and B = 30. -/
theorem transfer_moves_amount_witness :
    ∃ fb tb tid l', transferBalance wLedgerAB xferAB20 = Except.ok (fb, tb, tid, l') ∧
      fb.availableBalance = 30 ∧ tb.availableBalance = 30 ∧
      getBalance l' "acct-A5" "USD" = some fb ∧
      getBalance l' "acct-B5" "USD" = some tb := by
  obtain ⟨⟨fb, tb, tid, l', hok, hfa, hta, hgf, hgt⟩, -⟩ :=
    transfer_moves_amount_and_rolls_back (l := wLedgerAB) (r := xferAB20)
      (by decide) (by decide) (by decide)
  refine ⟨fb, tb, tid, l', hok, ?_, ?_, hgf, hgt⟩
  · rw [hfa]; decide
  · rw [hta]; decide

def wCreditB40Req : BalanceUpdateRequest :=
  { accountId := "acct-B", amount := 40, currency := "USD", operationType := .credit,
    reference := "ref-b40", description := "seed forty" }

def wLedgerB40 : Ledger := runUpdate emptyLedger wCreditB40Req

def selfXferReqB : TransferRequest :=
  { fromAccountId := "acct-B", toAccountId := "acct-B", amount := 15, currency := "USD",
    reference := "ref-self-b", description := "self transfer" }

/-- C6: the claim (and spec §4.4/§7) says a self-transfer is rejected with
`InvalidTransfer` and nothing changes, but neither `transferBalance` nor the
route handler checks `fromAccountId == toAccountId`.  Evaluating the code at
the failing input (account with available = 40, self-transfer of 15): the call
is accepted, commits an operation record, and — because the credit leg is
computed from the `toBalance` snapshot read before the debit and overwrites
the debited row — leaves available = 55, conjuring 15 units out of thin air.
This contradicts the documented intent, so it is recorded as a code bug. -/
theorem transferBalance_accepts_self_transfer :
    (transferBalance wLedgerB40 selfXferReqB).isOk = true ∧
    (getBalance (runTransfer wLedgerB40 selfXferReqB) "acct-B" "USD").any
      (fun b => decide (b.availableBalance = 55)) = true ∧
    (runTransfer wLedgerB40 selfXferReqB).ops.length = wLedgerB40.ops.length + 1 :=
  ⟨by decide, by decide, by decide⟩

def wCreditX30Req : BalanceUpdateRequest :=
  { accountId := "acct-X", amount := 30, currency := "USD", operationType := .credit,
    reference := "ref-x30", description := "seed thirty" }

def wLedgerX30 : Ledger := runUpdate emptyLedger wCreditX30Req

def xferXY20 : TransferRequest :=
  { fromAccountId := "acct-X", toAccountId := "acct-Y", amount := 20, currency := "USD",
    reference := "ref-xy20", description := "transfer twenty" }

/-- C7 counterexample: a successful transfer appends exactly ONE operation
record, not two: the operation count grows by one and no record at all is
written against the destination account. -/
theorem transfer_one_record_counterexample :
    (runTransfer wLedgerX30 xferXY20).ops.length = wLedgerX30.ops.length + 1 ∧
    (runTransfer wLedgerX30 xferXY20).ops.countP
      (fun op => op.accountId == "acct-Y") = 0 :=
  ⟨by decide, by decide⟩

/-- C7 (amended): every successful `transferBalance` appends exactly one
operation record of type 'transfer', recorded against the source account,
carrying `metadata.transferType = 'outbound'` and `metadata.toAccountId`
naming the destination, committed as 'completed' with `processed_at` set.  No
inbound-leg record is written for the destination account
(`transfer_one_record_counterexample`), so there is no two-record linkage. -/
theorem transfer_appends_single_outbound_record {l : Ledger} {r : TransferRequest}
    {fb tb : Balance} {tid : Nat} {l' : Ledger}
    (h : transferBalance l r = Except.ok (fb, tb, tid, l')) :
    l'.ops.length = l.ops.length + 1 ∧
    ∃ op, l'.ops.getLast? = some op ∧
      op.accountId = r.fromAccountId ∧
      op.operationType = OpType.transfer ∧
      op.amount = r.amount ∧
      op.currency = r.currency ∧
      op.reference = r.reference ∧
      op.metadata.transferType = some "outbound" ∧
      op.metadata.toAccountId = some r.toAccountId ∧
      op.status = OpStatus.completed ∧
      op.processedAt = true := by
  obtain ⟨hz, hs, htid, l₄, l₅, ha, hb, hl'⟩ := transferBalance_ok_elim h
  obtain ⟨rowF, hrowF, -, -, hops4, -⟩ := applyBalanceOperation_some_elim ha
  obtain ⟨rowT, hrowT, -, -, hops5, -⟩ := applyBalanceOperation_some_elim hb
  subst htid
  subst hl'
  constructor
  · show (l₅.ops.map _).length = l.ops.length + 1
    rw [hops5, hops4, createTransferOperation_ops, getOrCreateBalance_ops,
      getOrCreateBalance_ops]
    simp
  · refine ⟨{ transferOpRecord
        (getOrCreateBalance (getOrCreateBalance l r.fromAccountId r.currency).2
          r.toAccountId r.currency).2 r with
        status := OpStatus.completed, processedAt := true },
      ?_, rfl, rfl, rfl, rfl, rfl, rfl, rfl, rfl, rfl⟩
    show (l₅.ops.map _).getLast? = some _
    rw [hops5, hops4, createTransferOperation_ops, List.map_append]
    simp only [List.map_cons, List.map_nil]
    rw [List.getLast?_concat]
    simp [transferOpRecord, createTransferOperation]

def wXferOkFb : Balance :=
  { accountId := "acct-X", currency := "USD", availableBalance := 10,
    pendingBalance := 0, totalBalance := 10, reservedBalance := 0 }

def wXferOkTb : Balance :=
  { accountId := "acct-Y", currency := "USD", availableBalance := 20,
    pendingBalance := 0, totalBalance := 20, reservedBalance := 0 }

/-- Witness for the amended C7 at a concrete successful transfer. -/
theorem transfer_appends_single_outbound_record_witness :
    (runTransfer wLedgerX30 xferXY20).ops.length = wLedgerX30.ops.length + 1 := by
  have h : transferBalance wLedgerX30 xferXY20
      = Except.ok (wXferOkFb, wXferOkTb, 1, runTransfer wLedgerX30 xferXY20) := by
    decide
  exact (transfer_appends_single_outbound_record h).1

/-- C8: reserve/release round-trip.  For any well-formed stored balance
(non-negative reserve, total = available + reserved, as the data model
guarantees) with `available ≥ x > 0`: `reserve(x)` succeeds and commits
available − x / reserved + x with the total unchanged, and a following
`release(x)` succeeds and restores exactly the original available, reserved
and total values. -/
theorem reserve_release_roundtrip {l : Ledger} {x : Int} (a c ref₁ ref₂ d₁ d₂ : String)
    (hx : 0 < x)
    (hres : 0 ≤ (getOrCreateBalance l a c).1.reservedBalance)
    (havail : x ≤ (getOrCreateBalance l a c).1.availableBalance)
    (htot : (getOrCreateBalance l a c).1.totalBalance =
      (getOrCreateBalance l a c).1.availableBalance +
      (getOrCreateBalance l a c).1.reservedBalance) :
    ∃ b₁ l₁ b₂ l₂,
      updateBalance l ⟨a, x, c, .reserve, ref₁, d₁, {}⟩ = Except.ok (b₁, l₁) ∧
      b₁.availableBalance = (getOrCreateBalance l a c).1.availableBalance - x ∧
      b₁.reservedBalance = (getOrCreateBalance l a c).1.reservedBalance + x ∧
      b₁.totalBalance = (getOrCreateBalance l a c).1.totalBalance ∧
      updateBalance l₁ ⟨a, x, c, .release, ref₂, d₂, {}⟩ = Except.ok (b₂, l₂) ∧
      b₂.availableBalance = (getOrCreateBalance l a c).1.availableBalance ∧
      b₂.reservedBalance = (getOrCreateBalance l a c).1.reservedBalance ∧
      b₂.totalBalance = (getOrCreateBalance l a c).1.totalBalance := by
  have hz : ¬ x = 0 := by omega
  have hkey := getOrCreateBalance_key l a c
  have hv₁ : validateBalanceOperation (getOrCreateBalance l a c).1
      UpdateOpType.reserve.toOpType x = Except.ok () := by
    simp only [validateBalanceOperation, UpdateOpType.toOpType]
    rw [if_neg (not_lt.2 havail)]
  have hrow₁ : getBalance
      (createBalanceOperation (getOrCreateBalance l a c).2 ⟨a, x, c, .reserve, ref₁, d₁, {}⟩).2
      (getOrCreateBalance l a c).1.accountId (getOrCreateBalance l a c).1.currency
      = some (getOrCreateBalance l a c).1 := by
    rw [getBalance_createBalanceOperation, hkey.1, hkey.2]
    exact getBalance_getOrCreateBalance l a c
  have ha₁ := applyBalanceOperation_eq_some (t := UpdateOpType.reserve.toOpType)
    (v := x) hrow₁
  obtain ⟨b₁, l₁, hok₁⟩ : ∃ b₁ l₁,
      updateBalance l ⟨a, x, c, .reserve, ref₁, d₁, {}⟩ = Except.ok (b₁, l₁) :=
    ⟨_, _, updateBalance_eq_ok hz hv₁ ha₁⟩
  obtain ⟨-, -, l₃, ha₁', hl₁⟩ := updateBalance_ok_elim hok₁
  obtain ⟨row₁, hrow₁', hb₁eq, -, -, -⟩ := applyBalanceOperation_some_elim ha₁'
  rw [hrow₁] at hrow₁'
  injection hrow₁' with hrow₁''
  rw [← hrow₁''] at hb₁eq
  have hb₁a : b₁.availableBalance = (getOrCreateBalance l a c).1.availableBalance - x := by
    rw [hb₁eq]; rfl
  have hb₁r : b₁.reservedBalance = (getOrCreateBalance l a c).1.reservedBalance + x := by
    rw [hb₁eq]; rfl
  have hb₁t : b₁.totalBalance = (getOrCreateBalance l a c).1.totalBalance := by
    rw [hb₁eq]
    show newAvailable (getOrCreateBalance l a c).1 UpdateOpType.reserve.toOpType x
      + newReserved (getOrCreateBalance l a c).1 UpdateOpType.reserve.toOpType x
      = (getOrCreateBalance l a c).1.totalBalance
    dsimp only [newAvailable, newReserved, UpdateOpType.toOpType]
    omega
  have hgb₁ : getBalance l₁ a c = some b₁ := by
    rw [hl₁, getBalance_completeBalanceOperation]
    have hsame := getBalance_after_apply_same ha₁'
    rw [hkey.1, hkey.2] at hsame
    exact hsame
  have hgc₁ : getOrCreateBalance l₁ a c = (b₁, l₁) := by
    unfold getOrCreateBalance
    rw [hgb₁]
  have hxr : x ≤ (getOrCreateBalance l₁ a c).1.reservedBalance := by
    rw [hgc₁, hb₁r]
    omega
  have hv₂ : validateBalanceOperation (getOrCreateBalance l₁ a c).1
      UpdateOpType.release.toOpType x = Except.ok () := by
    simp only [validateBalanceOperation, UpdateOpType.toOpType]
    rw [if_neg (not_lt.2 hxr)]
  have hkey₂ := getOrCreateBalance_key l₁ a c
  have hrow₂ : getBalance
      (createBalanceOperation (getOrCreateBalance l₁ a c).2
        ⟨a, x, c, .release, ref₂, d₂, {}⟩).2
      (getOrCreateBalance l₁ a c).1.accountId (getOrCreateBalance l₁ a c).1.currency
      = some (getOrCreateBalance l₁ a c).1 := by
    rw [getBalance_createBalanceOperation, hkey₂.1, hkey₂.2]
    exact getBalance_getOrCreateBalance l₁ a c
  have ha₂ := applyBalanceOperation_eq_some (t := UpdateOpType.release.toOpType)
    (v := x) hrow₂
  obtain ⟨b₂, l₂, hok₂⟩ : ∃ b₂ l₂,
      updateBalance l₁ ⟨a, x, c, .release, ref₂, d₂, {}⟩ = Except.ok (b₂, l₂) :=
    ⟨_, _, updateBalance_eq_ok hz hv₂ ha₂⟩
  obtain ⟨-, -, l₃', ha₂', hl₂⟩ := updateBalance_ok_elim hok₂
  obtain ⟨row₂, hrow₂', hb₂eq, -, -, -⟩ := applyBalanceOperation_some_elim ha₂'
  rw [hrow₂] at hrow₂'
  injection hrow₂' with hrow₂''
  rw [← hrow₂''] at hb₂eq
  rw [hgc₁] at hb₂eq
  have hb₂a : b₂.availableBalance = (getOrCreateBalance l a c).1.availableBalance := by
    rw [hb₂eq]
    show b₁.availableBalance + x = (getOrCreateBalance l a c).1.availableBalance
    omega
  have hb₂r : b₂.reservedBalance = (getOrCreateBalance l a c).1.reservedBalance := by
    rw [hb₂eq]
    show b₁.reservedBalance - x = (getOrCreateBalance l a c).1.reservedBalance
    omega
  have hb₂t : b₂.totalBalance = (getOrCreateBalance l a c).1.totalBalance := by
    rw [hb₂eq]
    show (b₁.availableBalance + x) + (b₁.reservedBalance - x)
      = (getOrCreateBalance l a c).1.totalBalance
    omega
  exact ⟨b₁, l₁, b₂, l₂, hok₁, hb₁a, hb₁r, hb₁t, hok₂, hb₂a, hb₂r, hb₂t⟩

def wCreditR100Req : BalanceUpdateRequest :=
  { accountId := "acct-R", amount := 100, currency := "USD", operationType := .credit,
    reference := "ref-r100", description := "seed one hundred" }

def wLedgerR100 : Ledger := runUpdate emptyLedger wCreditR100Req

/-- Witness for C8: the spec's example — available = 100, reserved = 0;
`reserve(30)` gives 70/30/100 and `release(30)` restores 100/0/100. -/
theorem reserve_release_roundtrip_witness :
    ∃ b₁ l₁ b₂ l₂,
      updateBalance wLedgerR100 ⟨"acct-R", 30, "USD", .reserve, "rr1", "hold", {}⟩
        = Except.ok (b₁, l₁) ∧
      b₁.availableBalance = 100 - 30 ∧
      b₁.reservedBalance = 0 + 30 ∧
      b₁.totalBalance = 100 ∧
      updateBalance l₁ ⟨"acct-R", 30, "USD", .release, "rr2", "free", {}⟩
        = Except.ok (b₂, l₂) ∧
      b₂.availableBalance = 100 ∧
      b₂.reservedBalance = 0 ∧
      b₂.totalBalance = 100 := by
  obtain ⟨b₁, l₁, b₂, l₂, hok₁, h1a, h1r, h1t, hok₂, h2a, h2r, h2t⟩ :=
    reserve_release_roundtrip (l := wLedgerR100) (x := 30)
      "acct-R" "USD" "rr1" "rr2" "hold" "free"
      (by decide) (by decide) (by decide) (by decide)
  refine ⟨b₁, l₁, b₂, l₂, hok₁, ?_, ?_, ?_, hok₂, ?_, ?_, ?_⟩
  · rw [h1a]; decide
  · rw [h1r]; decide
  · rw [h1t]; decide
  · rw [h2a]; decide
  · rw [h2r]; decide
  · rw [h2t]; decide

/-! ### Snapshot upsert lemmas (C9) -/

theorem snapKey_true_iff {a c d : String} {s : SnapshotRow} :
    snapKey a c d s = true ↔ s.accountId = a ∧ s.currency = c ∧ s.snapshotDate = d := by
  simp [snapKey, and_assoc]

theorem snapKey_snapshotOf_self (a d : String) (b : Balance) :
    snapKey a b.currency d (snapshotOf a d b) = true := by
  simp [snapKey, snapshotOf]

theorem snapKey_snapshotOf_ne {a d c : String} {b : Balance} (h : b.currency ≠ c) :
    snapKey a c d (snapshotOf a d b) = false := by
  simp [snapKey, snapshotOf]
  intro h1
  exact absurd h1 h

theorem snapKey_disjoint_of_currency_ne {a d c₁ c₂ : String} (h : c₁ ≠ c₂) :
    ∀ x, snapKey a c₁ d x = true → snapKey a c₂ d x = false := by
  intro x hx
  obtain ⟨-, hc, -⟩ := snapKey_true_iff.1 hx
  cases hk : snapKey a c₂ d x with
  | false => rfl
  | true =>
    obtain ⟨-, hc₂, -⟩ := snapKey_true_iff.1 hk
    rw [hc] at hc₂
    exact absurd hc₂ h

theorem upsert_countP_self {s : List SnapshotRow} {w : SnapshotRow}
    (h : s.countP (snapKey w.accountId w.currency w.snapshotDate) ≤ 1) :
    (upsertSnapshot s w).countP
      (snapKey w.accountId w.currency w.snapshotDate) = 1 := by
  have hrowkey : snapKey w.accountId w.currency w.snapshotDate w = true := by
    simp [snapKey]
  unfold upsertSnapshot
  cases hany : s.any (snapKey w.accountId w.currency w.snapshotDate) with
  | false =>
    rw [if_neg (by simp [hany])]
    rw [List.countP_append]
    have h0 : s.countP (snapKey w.accountId w.currency w.snapshotDate) = 0 := by
      rw [List.countP_eq_zero]
      intro x hx hpx
      have hcontra : s.any (snapKey w.accountId w.currency w.snapshotDate) = true :=
        List.any_eq_true.2 ⟨x, hx, hpx⟩
      rw [hany] at hcontra
      exact Bool.noConfusion hcontra
    rw [h0]
    simp [List.countP_cons, hrowkey]
  | true =>
    rw [if_pos (by simp [hany])]
    rw [List.countP_map]
    have heq : s.countP
        ((snapKey w.accountId w.currency w.snapshotDate) ∘
          (fun s' => if snapKey w.accountId w.currency w.snapshotDate s'
                     then w else s'))
        = s.countP (snapKey w.accountId w.currency w.snapshotDate) := by
      apply List.countP_congr
      intro x hx
      cases hk : snapKey w.accountId w.currency w.snapshotDate x with
      | true => simp [Function.comp, hk, hrowkey]
      | false => simp [Function.comp, hk]
    rw [heq]
    obtain ⟨x, hx, hpx⟩ := List.any_eq_true.1 hany
    have hpos : 0 < s.countP (snapKey w.accountId w.currency w.snapshotDate) :=
      List.countP_pos_iff.2 ⟨x, hx, hpx⟩
    omega

theorem upsert_countP_of_disjoint {s : List SnapshotRow} {w : SnapshotRow}
    {p : SnapshotRow → Bool}
    (hd : ∀ x, p x = true → snapKey w.accountId w.currency w.snapshotDate x = false)
    (hrow : p w = false) :
    (upsertSnapshot s w).countP p = s.countP p := by
  unfold upsertSnapshot
  cases hany : s.any (snapKey w.accountId w.currency w.snapshotDate) with
  | false =>
    rw [if_neg (by simp [hany])]
    rw [List.countP_append]
    simp [List.countP_cons, hrow]
  | true =>
    rw [if_pos (by simp [hany])]
    rw [List.countP_map]
    apply List.countP_congr
    intro x hx
    cases hk : snapKey w.accountId w.currency w.snapshotDate x with
    | true =>
      have hpx : p x = false := by
        cases hpx : p x with
        | false => rfl
        | true => rw [hd x hpx] at hk; exact Bool.noConfusion hk
      simp [Function.comp, hk, hrow, hpx]
    | false => simp [Function.comp, hk]

theorem upsert_mem_self (s : List SnapshotRow) (row : SnapshotRow) :
    row ∈ upsertSnapshot s row := by
  unfold upsertSnapshot
  cases hany : s.any (snapKey row.accountId row.currency row.snapshotDate) with
  | false =>
    rw [if_neg (by simp [hany])]
    exact List.mem_append.2 (Or.inr (List.mem_singleton.2 rfl))
  | true =>
    rw [if_pos (by simp [hany])]
    obtain ⟨x, hx, hpx⟩ := List.any_eq_true.1 hany
    have hmem := List.mem_map_of_mem
      (fun s' => if snapKey row.accountId row.currency row.snapshotDate s'
                 then row else s') hx
    simp only [hpx, if_true] at hmem
    exact hmem

theorem upsert_mem_of_key_false {s : List SnapshotRow} {row x : SnapshotRow}
    (hx : x ∈ s)
    (hk : snapKey row.accountId row.currency row.snapshotDate x = false) :
    x ∈ upsertSnapshot s row := by
  unfold upsertSnapshot
  cases hany : s.any (snapKey row.accountId row.currency row.snapshotDate) with
  | false =>
    rw [if_neg (by simp [hany])]
    exact List.mem_append.2 (Or.inl hx)
  | true =>
    rw [if_pos (by simp [hany])]
    have hmem := List.mem_map_of_mem
      (fun s' => if snapKey row.accountId row.currency row.snapshotDate s'
                 then row else s') hx
    simp only [hk, if_false, Bool.false_eq_true] at hmem
    exact hmem

theorem fold_upsert_countP_preserved (a d : String) (bs : List Balance)
    (s : List SnapshotRow) {p : SnapshotRow → Bool}
    (hd : ∀ b ∈ bs, (∀ x, p x = true → snapKey a b.currency d x = false) ∧
      p (snapshotOf a d b) = false) :
    (bs.foldl (fun snaps balance => upsertSnapshot snaps (snapshotOf a d balance)) s).countP p
      = s.countP p := by
  induction bs generalizing s with
  | nil => rfl
  | cons b bs ih =>
    rw [List.foldl_cons]
    rw [ih _ (fun b' hb' => hd b' (List.mem_cons_of_mem b hb'))]
    exact upsert_countP_of_disjoint (hd b (List.mem_cons_self b bs)).1
      (hd b (List.mem_cons_self b bs)).2

theorem fold_upsert_mem_preserved (a d : String) (bs : List Balance)
    (s : List SnapshotRow) {x : SnapshotRow} (hx : x ∈ s)
    (hd : ∀ b ∈ bs, snapKey a b.currency d x = false) :
    x ∈ bs.foldl (fun snaps balance => upsertSnapshot snaps (snapshotOf a d balance)) s := by
  induction bs generalizing s with
  | nil => exact hx
  | cons b bs ih =>
    rw [List.foldl_cons]
    exact ih _ (upsert_mem_of_key_false hx (hd b (List.mem_cons_self b bs)))
      (fun b' hb' => hd b' (List.mem_cons_of_mem b hb'))

theorem fold_upsert_count_mem (a d : String) (bs : List Balance) (s : List SnapshotRow)
    (hpair : bs.Pairwise (fun b₁ b₂ => b₁.currency ≠ b₂.currency))
    (hcount : ∀ b ∈ bs, s.countP (snapKey a b.currency d) ≤ 1) :
    ∀ b ∈ bs,
      (bs.foldl (fun snaps balance => upsertSnapshot snaps (snapshotOf a d balance)) s).countP
        (snapKey a b.currency d) = 1 ∧
      snapshotOf a d b ∈
        bs.foldl (fun snaps balance => upsertSnapshot snaps (snapshotOf a d balance)) s := by
  induction bs generalizing s with
  | nil => intro b hb; cases hb
  | cons b₀ bs ih =>
    obtain ⟨hhead, htail⟩ := List.pairwise_cons.1 hpair
    intro b hb
    rw [List.foldl_cons]
    rcases List.mem_cons.1 hb with rfl | hbs
    · constructor
      · rw [fold_upsert_countP_preserved a d bs _ ?hdisj]
        · exact upsert_countP_self (s := s) (w := snapshotOf a d b)
            (hcount b (List.mem_cons_self b bs))
        case hdisj =>
          intro b' hb'
          exact ⟨snapKey_disjoint_of_currency_ne (hhead b' hb'),
            snapKey_snapshotOf_ne (hhead b' hb').symm⟩
      · apply fold_upsert_mem_preserved a d bs _ (upsert_mem_self _ _)
        intro b' hb'
        exact snapKey_snapshotOf_ne (hhead b' hb')
    · refine ih _ htail ?_ b hbs
      intro b' hb'
      rw [upsert_countP_of_disjoint (w := snapshotOf a d b₀)
        (p := snapKey a b'.currency d)
        (snapKey_disjoint_of_currency_ne (hhead b' hb').symm)
        (snapKey_snapshotOf_ne (hhead b' hb'))]
      exact hcount b' (List.mem_cons_of_mem b₀ hb')

theorem createDailySnapshot_balances (l : Ledger) (a d : String) :
    (createDailySnapshot l a d).balances = l.balances := rfl

theorem createDailySnapshot_snapshots (l : Ledger) (a d : String) :
    (createDailySnapshot l a d).snapshots =
      (getAllBalances l a).foldl
        (fun snaps balance => upsertSnapshot snaps (snapshotOf a d balance))
        l.snapshots := rfl

/-- C9: `createDailySnapshot` is idempotent per (account, currency, date).
Under the schema's uniqueness constraints (one `balances` row per currency for
the account, at most one `balance_snapshots` row per (account, currency,
date)), invoking `createDailySnapshot` twice for the same account and date
with no balance mutation in between leaves, for every currency the account
holds, exactly one snapshot row for that (account, currency, date) key, and
that row is the upserted snapshot of the current balance (the latest values)
— never a duplicate row. -/
theorem createDailySnapshot_twice_one_row {l : Ledger} {a d : String}
    (hpair : (getAllBalances l a).Pairwise (fun b₁ b₂ => b₁.currency ≠ b₂.currency))
    (hcount : ∀ b ∈ getAllBalances l a,
      l.snapshots.countP (snapKey a b.currency d) ≤ 1) :
    ∀ b ∈ getAllBalances l a,
      (createDailySnapshot (createDailySnapshot l a d) a d).snapshots.countP
        (snapKey a b.currency d) = 1 ∧
      snapshotOf a d b ∈ (createDailySnapshot (createDailySnapshot l a d) a d).snapshots := by
  have h1 := fold_upsert_count_mem a d (getAllBalances l a) l.snapshots hpair hcount
  have hcount2 : ∀ b ∈ getAllBalances l a,
      (createDailySnapshot l a d).snapshots.countP (snapKey a b.currency d) ≤ 1 := by
    intro b hb
    rw [createDailySnapshot_snapshots]
    exact (h1 b hb).1.le
  have h2 := fold_upsert_count_mem a d (getAllBalances l a)
    (createDailySnapshot l a d).snapshots hpair hcount2
  intro b hb
  exact h2 b hb

def wSnapLedger : Ledger := runUpdate emptyLedger wCredit100Req

/-- Witness for C9 at a concrete single-currency account. -/
theorem createDailySnapshot_twice_one_row_witness :
    (createDailySnapshot (createDailySnapshot wSnapLedger "acct-d" "2026-01-02")
        "acct-d" "2026-01-02").snapshots.countP
      (snapKey "acct-d" "USD" "2026-01-02") = 1 := by
  have h := createDailySnapshot_twice_one_row
    (l := wSnapLedger) (a := "acct-d") (d := "2026-01-02")
    (by decide) (by decide)
    { accountId := "acct-d", currency := "USD", availableBalance := 100,
      pendingBalance := 0, totalBalance := 100, reservedBalance := 0 }
    (by decide)
  exact h.1

end SwiftPay
